import Mathlib

/-!
Shallow embedding of the control core of `src/Skripsie_Main_Program.ino`
(ESP32 multi-chamber sous-vide controller): chamber model, state machine,
button router, temperature/timer scheduler and the BLE SET/STATUS codec.

Temperatures (`float` in the source) are modelled as rationals; all constants
appearing in the control logic (40, 90, 0.5, -999.0) are exactly representable
in both. Machine integers (`int`, `unsigned long`) are modelled as `Int` / `Nat`,
with the `millis()` subtraction done modulo 2^32 as on the 32-bit target.
-/

namespace Skripsie

/-- Whitespace test matching C `isspace`, used by Arduino `String::trim`. -/
def isSpaceA (c : Char) : Bool :=
  c = ' ' || c = '\t' || c = '\n' || c = '\x0b' || c = '\x0c' || c = '\r'

/-- Arduino `String::trim`: strip leading and trailing whitespace. -/
def trimA (s : List Char) : List Char :=
  ((s.dropWhile isSpaceA).reverse.dropWhile isSpaceA).reverse

/-- Index of the first occurrence of `c` in `s`, if any (Arduino `indexOf(c)`). -/
def indexOfQ (c : Char) : List Char → Option Nat
  | [] => none
  | a :: rest => if a = c then some 0 else (indexOfQ c rest).map (· + 1)

/-- Arduino `indexOf(c, fromIndex)`: first occurrence of `c` at position ≥ `i`. -/
def indexOfFromQ (c : Char) (s : List Char) (i : Nat) : Option Nat :=
  (indexOfQ c (s.drop i)).map (· + i)

/-- Arduino `substring(a, b)` for the in-range calls made by the parser:
the characters at positions `a ≤ p < b`. -/
def substrA (s : List Char) (a b : Nat) : List Char :=
  (s.drop a).take (b - a)

/-- Digit recogniser for `atol`. -/
def isDigitA (c : Char) : Bool := '0' ≤ c ∧ c ≤ '9'

/-- Accumulate leading decimal digits, `atol`-style. -/
def atolDigits (acc : Int) : List Char → Int
  | [] => acc
  | c :: rest =>
    if isDigitA c then atolDigits (acc * 10 + (c.toNat - '0'.toNat : Int)) rest
    else acc

/-- Arduino `String::toInt` (C `atol`): skip leading whitespace, optional
sign, then leading digits; `0` when no digits are found. -/
def toIntA (s : List Char) : Int :=
  let s := s.dropWhile isSpaceA
  match s with
  | '-' :: rest => - atolDigits 0 rest
  | '+' :: rest => atolDigits 0 rest
  | rest => atolDigits 0 rest

/-- Wraparound-safe elapsed time on 32-bit `unsigned long` `millis()` values:
`now - last` computed modulo 2^32. -/
def elapsedMs (now last : Nat) : Nat :=
  (now % 4294967296 + 4294967296 - last % 4294967296) % 4294967296

-- ==================== constants ====================

def TEMP_MIN : ℚ := 40
def TEMP_MAX : ℚ := 90
def TIME_MIN : Int := 0
def TIME_MAX : Int := 120
def TEMP_TOLERANCE : ℚ := 1 / 2
def TIMER_UPDATE_INTERVAL : Nat := 60000
def NUM_CHAMBERS : Nat := 3

-- ==================== data model ====================

/-- The `struct ChamberData` of the source. -/
structure ChamberData where
  targetTemp : ℚ
  currentTemp : ℚ
  targetTime : Int
  remainingTime : Int
  isActive : Bool
  atTemperature : Bool
  timerStarted : Bool
  timerLastUpdate : Nat
deriving Repr, DecidableEq

/-- The fixed array of three chambers, `chambers[NUM_CHAMBERS]`. -/
structure Chambers where
  ch0 : ChamberData
  ch1 : ChamberData
  ch2 : ChamberData
deriving Repr, DecidableEq

/-- Read access `chambers[n]` (callers guard `n < 3`; out-of-range reads the
last cell, which no guarded call path reaches). -/
def Chambers.get (cs : Chambers) (n : Nat) : ChamberData :=
  if n = 0 then cs.ch0 else if n = 1 then cs.ch1 else cs.ch2

/-- Write access `chambers[n] = c` for `n < 3`; out-of-range writes are dropped
(no guarded call path performs one). -/
def Chambers.set (cs : Chambers) (n : Nat) (c : ChamberData) : Chambers :=
  if n = 0 then { cs with ch0 := c }
  else if n = 1 then { cs with ch1 := c }
  else if n = 2 then { cs with ch2 := c }
  else cs

/-- Update chamber `n` in place. -/
def Chambers.modify (cs : Chambers) (n : Nat) (f : ChamberData → ChamberData) :
    Chambers :=
  cs.set n (f (cs.get n))

/-- The `enum SystemState` of the source. -/
inductive SystemState where
  | idle | setting | running | paused
deriving Repr, DecidableEq

/-- The `enum SettingMode` of the source. -/
inductive SettingMode where
  | temperature | time
deriving Repr, DecidableEq

/-- The controller's global mutable state (the globals of the sketch that the
control core reads or writes). -/
structure SysState where
  currentState : SystemState
  settingMode : SettingMode
  selectedChamber : Nat
  chambers : Chambers
  lastButtonPress : Nat
deriving Repr, DecidableEq

/-- One zeroed, inactive chamber, as set up at startup. -/
def initChamber : ChamberData :=
  { targetTemp := 0, currentTemp := 0, targetTime := 0, remainingTime := 0
    isActive := false, atTemperature := false, timerStarted := false
    timerLastUpdate := 0 }

/-- Startup state: zeroed chambers, `STATE_IDLE`, `MODE_TEMPERATURE`,
chamber 0 selected. -/
def initState : SysState :=
  { currentState := .idle, settingMode := .temperature, selectedChamber := 0
    chambers := ⟨initChamber, initChamber, initChamber⟩, lastButtonPress := 0 }

-- ==================== chamber operations ====================

/-- The source's `adjustTemperature(delta)` applied to one chamber: from `0` an increment
jumps to `TEMP_MIN`; a decrement landing below `TEMP_MIN` snaps to `0`;
the result is clamped to `[0, TEMP_MAX]`. -/
def adjustTemperature (delta : Int) (c : ChamberData) : ChamberData :=
  let newTemp : ℚ := c.targetTemp + delta
  let newTemp : ℚ :=
    if c.targetTemp = 0 ∧ delta > 0 then TEMP_MIN
    else if newTemp < TEMP_MIN ∧ delta < 0 then 0
    else newTemp
  let newTemp : ℚ := if newTemp > TEMP_MAX then TEMP_MAX else newTemp
  let newTemp : ℚ := if newTemp < 0 then 0 else newTemp
  { c with targetTemp := newTemp }

/-- The source's `adjustTime(delta)` applied to one chamber: clamp to `[TIME_MIN, TIME_MAX]`. -/
def adjustTime (delta : Int) (c : ChamberData) : ChamberData :=
  let newTime : Int := c.targetTime + delta
  let newTime : Int := if newTime > TIME_MAX then TIME_MAX else newTime
  let newTime : Int := if newTime < TIME_MIN then TIME_MIN else newTime
  { c with targetTime := newTime }

/-- The per-chamber body of `updateTemperatures()`: store the sampled reading,
and while the chamber is active with a configured target recompute
`atTemperature`; the first transition to true latches `timerStarted`, stamps
`timerLastUpdate` and emits `EVENT:TEMP_REACHED:C<idx+1>`. -/
def applyReading (now : Nat) (idx : Nat) (v : ℚ) (c : ChamberData) :
    ChamberData × Option String :=
  let c := { c with currentTemp := v }
  if c.isActive ∧ c.targetTemp ≥ TEMP_MIN then
    if |c.currentTemp - c.targetTemp| ≤ TEMP_TOLERANCE then
      let c := { c with atTemperature := true }
      if ¬ c.timerStarted then
        ({ c with timerStarted := true, timerLastUpdate := now },
         some ("EVENT:TEMP_REACHED:C" ++ toString (idx + 1) ++ "\n"))
      else (c, none)
    else ({ c with atTemperature := false }, none)
  else (c, none)

/-- The per-chamber body of `updateTimers()`: while
`isActive ∧ timerStarted ∧ targetTime > 0`, once ≥ 60000 ms have elapsed
since `timerLastUpdate` and `remainingTime > 0`, decrement by one and restamp;
a decrement that lands on `0` emits `EVENT:COMPLETE:C<idx+1>`. -/
def tickTimer (now : Nat) (idx : Nat) (c : ChamberData) :
    ChamberData × Option String :=
  if c.isActive ∧ c.timerStarted ∧ c.targetTime > 0 then
    if elapsedMs now c.timerLastUpdate ≥ TIMER_UPDATE_INTERVAL then
      if c.remainingTime > 0 then
        let c := { c with remainingTime := c.remainingTime - 1,
                          timerLastUpdate := now }
        if c.remainingTime = 0 then
          (c, some ("EVENT:COMPLETE:C" ++ toString (idx + 1) ++ "\n"))
        else (c, none)
      else (c, none)
    else (c, none)
  else (c, none)

-- ==================== scheduler passes ====================

/-- The pass `updateTemperatures()`: sample all three sensors (the readings are inputs
here) and run the per-chamber at-temperature logic. Returns the emitted
events. -/
def updateTemperatures (now : Nat) (r0 r1 r2 : ℚ) (s : SysState) :
    SysState × List String :=
  let p0 := applyReading now 0 r0 s.chambers.ch0
  let p1 := applyReading now 1 r1 s.chambers.ch1
  let p2 := applyReading now 2 r2 s.chambers.ch2
  ({ s with chambers := ⟨p0.1, p1.1, p2.1⟩ },
   p0.2.toList ++ p1.2.toList ++ p2.2.toList)

/-- The pass `updateTimers()`: run the countdown logic on all three chambers. -/
def updateTimers (now : Nat) (s : SysState) : SysState × List String :=
  let p0 := tickTimer now 0 s.chambers.ch0
  let p1 := tickTimer now 1 s.chambers.ch1
  let p2 := tickTimer now 2 s.chambers.ch2
  ({ s with chambers := ⟨p0.1, p1.1, p2.1⟩ },
   p0.2.toList ++ p1.2.toList ++ p2.2.toList)

-- ==================== input router ====================

/-- The `STATE_RUNNING` branch of button 4: stop the run — `STATE_IDLE`,
clear `isActive` / `atTemperature` / `timerStarted` on every chamber, emit
`EVENT:STOPPED`. -/
def stopRun (c : ChamberData) : ChamberData :=
  { c with isActive := false, atTemperature := false, timerStarted := false }

/-- The arming body of button 4 for one chamber: only a chamber with
`targetTemp ≥ TEMP_MIN` is touched. -/
def armChamber (now : Nat) (c : ChamberData) : ChamberData :=
  if c.targetTemp ≥ TEMP_MIN then
    { c with isActive := true, remainingTime := c.targetTime,
             timerStarted := false, timerLastUpdate := now }
  else c

/-- The five-button input router `handleButtonPress(buttonIndex)` of the source,
with `millis()` passed in as `now`. Returns emitted events. -/
def handleButtonPress (now : Nat) (buttonIndex : Nat) (s : SysState) :
    SysState × List String :=
  let s := { s with lastButtonPress := now }
  if buttonIndex = 0 then
    if s.currentState ≠ .running then
      ({ s with selectedChamber := (s.selectedChamber + 1) % NUM_CHAMBERS,
                currentState := .setting }, [])
    else (s, [])
  else if buttonIndex = 1 then
    if s.currentState = .setting then
      ({ s with settingMode :=
          if s.settingMode = .temperature then .time else .temperature }, [])
    else (s, [])
  else if buttonIndex = 2 then
    if s.currentState = .setting then
      (if s.settingMode = .temperature then
        { s with chambers := s.chambers.modify s.selectedChamber (adjustTemperature (-1)) }
       else
        { s with chambers := s.chambers.modify s.selectedChamber (adjustTime (-1)) }, [])
    else (s, [])
  else if buttonIndex = 3 then
    if s.currentState = .setting then
      (if s.settingMode = .temperature then
        { s with chambers := s.chambers.modify s.selectedChamber (adjustTemperature 1) }
       else
        { s with chambers := s.chambers.modify s.selectedChamber (adjustTime 1) }, [])
    else (s, [])
  else if buttonIndex = 4 then
    if s.currentState = .running then
      ({ s with currentState := .idle,
                chambers := ⟨stopRun s.chambers.ch0, stopRun s.chambers.ch1,
                             stopRun s.chambers.ch2⟩ },
       ["EVENT:STOPPED\n"])
    else
      ({ s with currentState := .running,
                chambers := ⟨armChamber now s.chambers.ch0,
                             armChamber now s.chambers.ch1,
                             armChamber now s.chambers.ch2⟩ },
       ["EVENT:STARTED\n"])
  else (s, [])

-- ==================== remote protocol codec ====================

/-- One iteration body of the `while` loop of `parseAppCommand`: split the
segment on its first two colons (`colon1 > 0 && colon2 > 0`), read the
1-based chamber index from the characters between position 1 and the first
colon, and when the index is in range overwrite that chamber's
`targetTemp` / `targetTime` with the raw parsed integers. -/
def processSegment (cs : Chambers) (seg : List Char) : Chambers :=
  match indexOfQ ':' seg with
  | none => cs
  | some colon1 =>
    if colon1 = 0 then cs
    else
      match indexOfFromQ ':' seg (colon1 + 1) with
      | none => cs
      | some colon2 =>
        let chamber : Int := toIntA (substrA seg 1 colon1) - 1
        let temp : Int := toIntA (substrA seg (colon1 + 1) colon2)
        let time : Int := toIntA (seg.drop (colon2 + 1))
        if 0 ≤ chamber ∧ chamber < (NUM_CHAMBERS : Int) then
          cs.modify chamber.toNat
            (fun c => { c with targetTemp := (temp : ℚ), targetTime := time })
        else cs

/-- The code's acceptance test for one segment: both colon positions found
with the first one positive, and the decoded 0-based chamber index in
`[0, 3)` (equivalently a 1-based index in `[1, 3]`). -/
def segmentAccepted (seg : List Char) : Bool :=
  match indexOfQ ':' seg with
  | none => false
  | some colon1 =>
    if colon1 = 0 then false
    else
      match indexOfFromQ ':' seg (colon1 + 1) with
      | none => false
      | some _ =>
        let chamber : Int := toIntA (substrA seg 1 colon1) - 1
        decide (0 ≤ chamber ∧ chamber < (NUM_CHAMBERS : Int))

/-- The `while (command.length() > 0 && chamberIndex < NUM_CHAMBERS)` loop of
`parseAppCommand`, written structurally on a fuel argument so it evaluates in
the kernel; every iteration consumes at least one character, so
`parseSETloop` below always supplies enough fuel. -/
def parseSETgo : Nat → Chambers → List Char → Nat → Chambers
  | 0, cs, _, _ => cs
  | fuel + 1, cs, cmd, chamberIndex =>
    if cmd.length > 0 ∧ chamberIndex < NUM_CHAMBERS then
      match indexOfQ ',' cmd with
      | none => processSegment cs cmd
      | some commaPos =>
        parseSETgo fuel (processSegment cs (cmd.take commaPos))
          (cmd.drop (commaPos + 1)) (chamberIndex + 1)
    else cs

/-- The segment loop of `parseAppCommand`, entered with the text after
`SET:`. -/
def parseSETloop (cs : Chambers) (cmd : List Char) (chamberIndex : Nat) :
    Chambers :=
  parseSETgo (cmd.length + 1) cs cmd chamberIndex

/-- The codec entry `parseAppCommand(command)`: trim, dispatch on the `SET:` prefix, run the
segment loop, and acknowledge every `SET` command; any other command is
ignored without a reply. -/
def parseAppCommand (cmd : List Char) (cs : Chambers) :
    Chambers × List String :=
  let command := trimA cmd
  if ("SET:".data).isPrefixOf command then
    (parseSETloop cs (command.drop 4) 0, ["ACK:Settings received\n"])
  else (cs, [])

/-- Split a command body at every comma (the segment decomposition that the
loop of `parseAppCommand` walks through). -/
def splitComma : List Char → List (List Char)
  | [] => [[]]
  | c :: rest =>
    let r := splitComma rest
    if c = ',' then [] :: r else (c :: r.headI) :: r.tail

-- ==================== events and the step relation ====================

/-- The asynchronous inputs the control core consumes: a debounced button
edge, one round of sensor readings, one timer-scheduler pass, and one inbound
BLE payload. Each carries the `millis()` value at which it is serviced. -/
inductive Event where
  | press (buttonIndex : Nat) (now : Nat)
  | readings (r0 r1 r2 : ℚ) (now : Nat)
  | timerPass (now : Nat)
  | command (cmd : List Char)

/-- One serviced input, as dispatched by `loop()`: `updateTimers` only runs
while `STATE_RUNNING`, mirroring the guard in `loop()`. -/
def step (s : SysState) : Event → SysState
  | .press b now => (handleButtonPress now b s).1
  | .readings r0 r1 r2 now => (updateTemperatures now r0 r1 r2 s).1
  | .timerPass now =>
      if s.currentState = .running then (updateTimers now s).1 else s
  | .command cmd => { s with chambers := (parseAppCommand cmd s.chambers).1 }

/-- Run a whole input trace from a state. -/
def runEvents (s : SysState) (es : List Event) : SysState :=
  es.foldl step s

/-- States the firmware can actually be in: everything obtainable from the
startup state by servicing inputs. -/
inductive Reachable : SysState → Prop where
  | init : Reachable initState
  | next (s : SysState) (e : Event) : Reachable s → Reachable (step s e)

-- ==================== claim C1: UI adjustment clamp invariant ====================

/-- The documented domain of a configured target temperature:
`{0} ∪ [TEMP_MIN, TEMP_MAX]`. -/
def tempInDomain (t : ℚ) : Prop :=
  t = 0 ∨ (TEMP_MIN ≤ t ∧ t ≤ TEMP_MAX)

instance (t : ℚ) : Decidable (tempInDomain t) := by
  unfold tempInDomain; infer_instance

/-- One UI adjustment call on a chamber: `adjustTemperature(delta)` or
`adjustTime(delta)`. -/
inductive AdjustCall where
  | temp (delta : Int)
  | time (delta : Int)

/-- Dispatch one adjustment call. -/
def applyAdjust (c : ChamberData) : AdjustCall → ChamberData
  | .temp d => adjustTemperature d c
  | .time d => adjustTime d c

/-- Run a whole sequence of adjustment calls. -/
def applyAdjustList (c : ChamberData) (calls : List AdjustCall) : ChamberData :=
  calls.foldl applyAdjust c

theorem adjustTemperature_targetTime (d : Int) (c : ChamberData) :
    (adjustTemperature d c).targetTime = c.targetTime := rfl

theorem adjustTime_targetTemp (d : Int) (c : ChamberData) :
    (adjustTime d c).targetTemp = c.targetTemp := rfl

theorem adjustTemperature_targetTemp (d : Int) (c : ChamberData) :
    (adjustTemperature d c).targetTemp =
      (let t1 : ℚ :=
        if c.targetTemp = 0 ∧ d > 0 then TEMP_MIN
        else if c.targetTemp + d < TEMP_MIN ∧ d < 0 then 0
        else c.targetTemp + d
       let t2 : ℚ := if t1 > TEMP_MAX then TEMP_MAX else t1
       if t2 < 0 then 0 else t2) := rfl

theorem adjustTemperature_sum_case (d : Int) (T : ℚ)
    (h : T = 0 ∨ (40 ≤ T ∧ T ≤ 90))
    (h1 : ¬(T = 0 ∧ d > 0)) (h2 : ¬(T + (d : ℚ) < 40 ∧ d < 0))
    (h3 : ¬(T + (d : ℚ) > 90)) :
    T + (d : ℚ) = 0 ∨ (40 ≤ T + (d : ℚ) ∧ T + (d : ℚ) ≤ 90) := by
  push_neg at h1 h2 h3
  rcases h with h0 | ⟨ha, hb⟩
  · have hd1 : d ≤ 0 := h1 h0
    by_cases hdn : d < 0
    · exfalso
      have hq : (d : ℚ) < 0 := by exact_mod_cast hdn
      have := h2 (by rw [h0]; linarith)
      omega
    · have hd0 : d = 0 := by omega
      left
      rw [h0, hd0]
      norm_num
  · right
    refine ⟨?_, h3⟩
    by_contra hlt
    push_neg at hlt
    have hdn : d < 0 := by
      have : (d : ℚ) < 0 := by linarith
      exact_mod_cast this
    have := h2 hlt
    omega

theorem adjustTemperature_dom (d : Int) (c : ChamberData)
    (h : tempInDomain c.targetTemp) :
    tempInDomain (adjustTemperature d c).targetTemp := by
  rw [adjustTemperature_targetTemp]
  simp only [tempInDomain, TEMP_MIN, TEMP_MAX] at *
  split_ifs <;> try norm_num
  exact adjustTemperature_sum_case d c.targetTemp h
    (by assumption) (by assumption) (by assumption)

theorem adjustTime_targetTime (d : Int) (c : ChamberData) :
    (adjustTime d c).targetTime =
      (let t1 : Int := if c.targetTime + d > TIME_MAX then TIME_MAX
                       else c.targetTime + d
       if t1 < TIME_MIN then TIME_MIN else t1) := rfl

theorem adjustTime_dom (d : Int) (c : ChamberData)
    (h0 : TIME_MIN ≤ c.targetTime) (h1 : c.targetTime ≤ TIME_MAX) :
    TIME_MIN ≤ (adjustTime d c).targetTime ∧
      (adjustTime d c).targetTime ≤ TIME_MAX := by
  rw [adjustTime_targetTime]
  simp only []
  unfold TIME_MIN TIME_MAX at *
  split_ifs <;> constructor <;> omega

theorem applyAdjust_dom (c : ChamberData) (call : AdjustCall)
    (h : tempInDomain c.targetTemp ∧ TIME_MIN ≤ c.targetTime ∧
         c.targetTime ≤ TIME_MAX) :
    tempInDomain (applyAdjust c call).targetTemp ∧
      TIME_MIN ≤ (applyAdjust c call).targetTime ∧
      (applyAdjust c call).targetTime ≤ TIME_MAX := by
  obtain ⟨hT, ht0, ht1⟩ := h
  cases call with
  | temp d =>
    exact ⟨adjustTemperature_dom d c hT,
      by rw [applyAdjust, adjustTemperature_targetTime]; exact ⟨ht0, ht1⟩⟩
  | time d =>
    exact ⟨by rw [applyAdjust, adjustTime_targetTemp]; exact hT,
      adjustTime_dom d c ht0 ht1⟩

theorem applyAdjustList_dom (c : ChamberData) (calls : List AdjustCall)
    (h : tempInDomain c.targetTemp ∧ TIME_MIN ≤ c.targetTime ∧
         c.targetTime ≤ TIME_MAX) :
    tempInDomain (applyAdjustList c calls).targetTemp ∧
      TIME_MIN ≤ (applyAdjustList c calls).targetTime ∧
      (applyAdjustList c calls).targetTime ≤ TIME_MAX := by
  induction calls generalizing c with
  | nil => exact h
  | cons call rest ih => exact ih (applyAdjust c call) (applyAdjust_dom c call h)

/-- C1: starting from a chamber whose target temperature lies in
`{0} ∪ [40, 90]` and whose target time lies in `[0, 120]`, any sequence of
`adjustTemperature` / `adjustTime` calls with arbitrary deltas keeps the
target temperature in `{0} ∪ [40, 90]` (so never in the open interval
`(0, 40)`) and the target time in `[0, 120]`; moreover any increment from
`0` jumps straight to `40`, and any decrement whose raw result would land
below `40` snaps to `0`. -/
theorem claim_C1 (c : ChamberData) (calls : List AdjustCall)
    (hT : tempInDomain c.targetTemp)
    (ht0 : TIME_MIN ≤ c.targetTime) (ht1 : c.targetTime ≤ TIME_MAX) :
    (tempInDomain (applyAdjustList c calls).targetTemp ∧
     ¬(0 < (applyAdjustList c calls).targetTemp ∧
        (applyAdjustList c calls).targetTemp < TEMP_MIN) ∧
     TIME_MIN ≤ (applyAdjustList c calls).targetTime ∧
     (applyAdjustList c calls).targetTime ≤ TIME_MAX) ∧
    (∀ c' : ChamberData, ∀ d : Int, c'.targetTemp = 0 → 0 < d →
       (adjustTemperature d c').targetTemp = TEMP_MIN) ∧
    (∀ c' : ChamberData, ∀ d : Int, d < 0 → c'.targetTemp + d < TEMP_MIN →
       (adjustTemperature d c').targetTemp = 0) := by
  refine ⟨?_, ?_, ?_⟩
  · obtain ⟨hd, h0, h1⟩ := applyAdjustList_dom c calls ⟨hT, ht0, ht1⟩
    refine ⟨hd, ?_, h0, h1⟩
    rcases hd with h | ⟨ha, _⟩
    · rintro ⟨hlt, _⟩; rw [h] at hlt; exact lt_irrefl 0 hlt
    · rintro ⟨_, hlt⟩; exact absurd ha (not_le.mpr hlt)
  · intro c' d h0 hd
    rw [adjustTemperature_targetTemp]
    norm_num [h0, hd, TEMP_MIN, TEMP_MAX]
  · intro c' d hd hlt
    have hd' : ¬ d > 0 := by omega
    have hlt' : c'.targetTemp + (d : ℚ) < 40 := by
      unfold TEMP_MIN at hlt
      exact hlt
    rw [adjustTemperature_targetTemp]
    norm_num [hd, hd', hlt', TEMP_MIN, TEMP_MAX]

/-- Witness for C1 at a concrete chamber and call sequence. -/
theorem claim_C1_witness :
    (tempInDomain
        (⟨65, 0, 30, 0, false, false, false, 0⟩ : ChamberData).targetTemp ∧
     TIME_MIN ≤ (⟨65, 0, 30, 0, false, false, false, 0⟩ : ChamberData).targetTime ∧
     (⟨65, 0, 30, 0, false, false, false, 0⟩ : ChamberData).targetTime ≤ TIME_MAX) ∧
    (tempInDomain
        (applyAdjustList ⟨65, 0, 30, 0, false, false, false, 0⟩
            [.temp 1, .time (-5), .temp (-100)]).targetTemp ∧
     ¬(0 < (applyAdjustList ⟨65, 0, 30, 0, false, false, false, 0⟩
            [.temp 1, .time (-5), .temp (-100)]).targetTemp ∧
        (applyAdjustList ⟨65, 0, 30, 0, false, false, false, 0⟩
            [.temp 1, .time (-5), .temp (-100)]).targetTemp < TEMP_MIN) ∧
     TIME_MIN ≤ (applyAdjustList ⟨65, 0, 30, 0, false, false, false, 0⟩
            [.temp 1, .time (-5), .temp (-100)]).targetTime ∧
     (applyAdjustList ⟨65, 0, 30, 0, false, false, false, 0⟩
            [.temp 1, .time (-5), .temp (-100)]).targetTime ≤ TIME_MAX) :=
  ⟨⟨by decide, by decide, by decide⟩,
   (claim_C1 ⟨65, 0, 30, 0, false, false, false, 0⟩
      [.temp 1, .time (-5), .temp (-100)]
      (by decide) (by decide) (by decide)).1⟩

-- ==================== claim C6: the -999.0 sentinel ====================

theorem sentinelFar (T : ℚ) (hT : TEMP_MIN ≤ T) :
    ¬(|(-999 : ℚ) - T| ≤ TEMP_TOLERANCE) := by
  unfold TEMP_MIN at hT
  unfold TEMP_TOLERANCE
  rw [abs_of_neg (by linarith : (-999 : ℚ) - T < 0)]
  intro hle
  linarith

/-- C6: applying the sensor-failure sentinel reading `-999.0` to any chamber
stores `-999.0` as the current temperature, can never newly set
`atTemperature`, can never newly set `timerStarted` (so a failed read cannot
start a timer), and emits no event. -/
theorem claim_C6 (now idx : Nat) (c : ChamberData) :
    (applyReading now idx (-999) c).1.currentTemp = -999 ∧
    ((applyReading now idx (-999) c).1.atTemperature = true →
      c.atTemperature = true) ∧
    ((applyReading now idx (-999) c).1.timerStarted = true →
      c.timerStarted = true) ∧
    (applyReading now idx (-999) c).2 = none := by
  simp only [applyReading]
  split_ifs with hA hB hC
  · exact absurd hB (sentinelFar c.targetTemp hA.2)
  · exact absurd hB (sentinelFar c.targetTemp hA.2)
  · exact ⟨rfl, by simp, fun h => h, rfl⟩
  · exact ⟨rfl, fun h => h, fun h => h, rfl⟩

/-- Witness for C6 at a concrete chamber with both flags already set. -/
theorem claim_C6_witness :
    (applyReading 5 0 (-999)
        ⟨65, 65, 60, 60, true, true, true, 0⟩).1.currentTemp = -999 ∧
    ((applyReading 5 0 (-999)
        ⟨65, 65, 60, 60, true, true, true, 0⟩).1.atTemperature = true →
      (⟨65, 65, 60, 60, true, true, true, 0⟩ : ChamberData).atTemperature = true) ∧
    ((applyReading 5 0 (-999)
        ⟨65, 65, 60, 60, true, true, true, 0⟩).1.timerStarted = true →
      (⟨65, 65, 60, 60, true, true, true, 0⟩ : ChamberData).timerStarted = true) ∧
    (applyReading 5 0 (-999) ⟨65, 65, 60, 60, true, true, true, 0⟩).2 = none :=
  claim_C6 5 0 ⟨65, 65, 60, 60, true, true, true, 0⟩

-- ==================== claim C2: timer tick behaviour ====================

/-- C2: a timer tick changes `remainingTime` only while
`isActive ∧ timerStarted ∧ targetTime > 0` hold and at least 60000 ms have
elapsed since `timerLastUpdate`, in which case it decrements it by exactly
one and never drives it below zero; the tick emits `EVENT:COMPLETE:C<idx+1>`
exactly when that decrement lands on zero (i.e. from `remainingTime = 1`),
so a later tick with `remainingTime = 0` emits nothing. -/
theorem claim_C2 (now idx : Nat) (c : ChamberData)
    (hnn : 0 ≤ c.remainingTime) :
    ((tickTimer now idx c).1.remainingTime ≠ c.remainingTime →
       (c.isActive = true ∧ c.timerStarted = true ∧ c.targetTime > 0 ∧
        elapsedMs now c.timerLastUpdate ≥ TIMER_UPDATE_INTERVAL ∧
        c.remainingTime > 0 ∧
        (tickTimer now idx c).1.remainingTime = c.remainingTime - 1)) ∧
    ((c.isActive = true ∧ c.timerStarted = true ∧ c.targetTime > 0 ∧
      elapsedMs now c.timerLastUpdate ≥ TIMER_UPDATE_INTERVAL ∧
      c.remainingTime > 0) →
       (tickTimer now idx c).1.remainingTime = c.remainingTime - 1) ∧
    0 ≤ (tickTimer now idx c).1.remainingTime ∧
    ((tickTimer now idx c).2 =
        some ("EVENT:COMPLETE:C" ++ toString (idx + 1) ++ "\n") ↔
      (c.isActive = true ∧ c.timerStarted = true ∧ c.targetTime > 0 ∧
       elapsedMs now c.timerLastUpdate ≥ TIMER_UPDATE_INTERVAL ∧
       c.remainingTime = 1)) ∧
    ((tickTimer now idx c).2 = none ∨
     (tickTimer now idx c).2 =
        some ("EVENT:COMPLETE:C" ++ toString (idx + 1) ++ "\n")) := by
  simp only [tickTimer]
  split_ifs with h1 h2 h3 h4
  · obtain ⟨ha, hb, hc⟩ := h1
    refine ⟨fun _ => ⟨ha, hb, hc, h2, h3, rfl⟩, fun _ => rfl,
      (by omega : (0:Int) ≤ c.remainingTime - 1),
      ⟨fun _ => ⟨ha, hb, hc, h2, by omega⟩, fun _ => rfl⟩, Or.inr rfl⟩
  · obtain ⟨ha, hb, hc⟩ := h1
    refine ⟨fun _ => ⟨ha, hb, hc, h2, h3, rfl⟩, fun _ => rfl,
      (by omega : (0:Int) ≤ c.remainingTime - 1),
      ⟨by simp, fun hr => absurd (by omega : c.remainingTime - 1 = 0) h4⟩,
      Or.inl rfl⟩
  · refine ⟨fun h => absurd rfl h, fun hr => absurd hr.2.2.2.2 h3, hnn,
      ⟨by simp, fun hr => absurd (by omega : c.remainingTime > 0) h3⟩,
      Or.inl rfl⟩
  · refine ⟨fun h => absurd rfl h, fun hr => absurd hr.2.2.2.1 h2, hnn,
      ⟨by simp, fun hr => absurd hr.2.2.2.1 h2⟩, Or.inl rfl⟩
  · refine ⟨fun h => absurd rfl h, fun hr => absurd ⟨hr.1, hr.2.1, hr.2.2.1⟩ h1,
      hnn, ⟨by simp, fun hr => absurd ⟨hr.1, hr.2.1, hr.2.2.1⟩ h1⟩, Or.inl rfl⟩

/-- Witness for C2 at a concrete armed chamber one minute past its last
update with one minute remaining. -/
theorem claim_C2_witness :
    0 ≤ (⟨65, 65, 60, 1, true, true, true, 1000⟩ : ChamberData).remainingTime ∧
    ((tickTimer 61000 0 ⟨65, 65, 60, 1, true, true, true, 1000⟩).2 =
        some ("EVENT:COMPLETE:C" ++ toString (0 + 1) ++ "\n") ↔
      ((⟨65, 65, 60, 1, true, true, true, 1000⟩ : ChamberData).isActive = true ∧
       (⟨65, 65, 60, 1, true, true, true, 1000⟩ : ChamberData).timerStarted = true ∧
       (⟨65, 65, 60, 1, true, true, true, 1000⟩ : ChamberData).targetTime > 0 ∧
       elapsedMs 61000
          (⟨65, 65, 60, 1, true, true, true, 1000⟩ : ChamberData).timerLastUpdate ≥
          TIMER_UPDATE_INTERVAL ∧
       (⟨65, 65, 60, 1, true, true, true, 1000⟩ : ChamberData).remainingTime = 1)) :=
  ⟨by decide, (claim_C2 61000 0 ⟨65, 65, 60, 1, true, true, true, 1000⟩
      (by decide)).2.2.2.1⟩

-- ==================== claim C8: stopping a run ====================

/-- C8: from `STATE_RUNNING`, button 4 clears `isActive`, `atTemperature`
and `timerStarted` on every chamber, leaves every chamber's `targetTemp`,
`targetTime`, `currentTemp` and `remainingTime` unchanged, moves the
controller to `STATE_IDLE`, and emits `EVENT:STOPPED`. -/
theorem claim_C8 (now : Nat) (s : SysState)
    (h : s.currentState = SystemState.running) :
    (handleButtonPress now 4 s).1.currentState = SystemState.idle ∧
    (handleButtonPress now 4 s).2 = ["EVENT:STOPPED\n"] ∧
    ∀ i : Nat,
      ((handleButtonPress now 4 s).1.chambers.get i).isActive = false ∧
      ((handleButtonPress now 4 s).1.chambers.get i).atTemperature = false ∧
      ((handleButtonPress now 4 s).1.chambers.get i).timerStarted = false ∧
      ((handleButtonPress now 4 s).1.chambers.get i).targetTemp =
        (s.chambers.get i).targetTemp ∧
      ((handleButtonPress now 4 s).1.chambers.get i).targetTime =
        (s.chambers.get i).targetTime ∧
      ((handleButtonPress now 4 s).1.chambers.get i).currentTemp =
        (s.chambers.get i).currentTemp ∧
      ((handleButtonPress now 4 s).1.chambers.get i).remainingTime =
        (s.chambers.get i).remainingTime := by
  refine ⟨?_, ?_, ?_⟩
  · simp [handleButtonPress, h]
  · simp [handleButtonPress, h]
  · intro i
    simp only [handleButtonPress, h]
    norm_num [Chambers.get, stopRun]
    split_ifs <;> simp

/-- Witness for C8 at a concrete running state. -/
theorem claim_C8_witness :
    ({ initState with currentState := .running } : SysState).currentState =
        SystemState.running ∧
    ((handleButtonPress 9 4 { initState with currentState := .running }).1.currentState =
        SystemState.idle ∧
     (handleButtonPress 9 4 { initState with currentState := .running }).2 =
        ["EVENT:STOPPED\n"]) :=
  ⟨by decide,
   (claim_C8 9 { initState with currentState := .running } (by decide)).1,
   (claim_C8 9 { initState with currentState := .running } (by decide)).2.1⟩

-- ==================== claim C5: starting a run (corrected) ====================

/-- A concrete input trace: configure chamber 1 to 65 °C / 60 min, start a
run (arming it with `remainingTime = 60`), stop it again, then remotely set
chamber 1 to 30 °C / 45 min. -/
def c5preTrace : List Event :=
  [ .command ("SET:C1:65:60".data)
  , .press 4 0
  , .press 4 1
  , .command ("SET:C1:30:45".data) ]

/-- The (reachable) state after `c5preTrace`: idle, chamber 0 holding
`targetTemp = 30`, `targetTime = 45`, `remainingTime = 60`. -/
def c5pre : SysState := runEvents initState c5preTrace

/-- C5 refutation: from a reachable non-Running state, pressing button 4
leaves a chamber whose `targetTemp < 40` entirely untouched, so its
`remainingTime` (here 60) is not reset to `targetTime` (here 45) — the
claimed unconditional `remaining_time = target_time` after ToggleRun is
false. -/
theorem claim_C5_counterexample :
    c5pre.currentState ≠ SystemState.running ∧
    (c5pre.chambers.get 0).targetTemp = 30 ∧
    ((handleButtonPress 2 4 c5pre).1.chambers.get 0).remainingTime = 60 ∧
    ((handleButtonPress 2 4 c5pre).1.chambers.get 0).targetTime = 45 ∧
    ((handleButtonPress 2 4 c5pre).1.chambers.get 0).remainingTime ≠
      ((handleButtonPress 2 4 c5pre).1.chambers.get 0).targetTime := by
  decide

/-- C5 (amended): from every state other than Running, button 4 transitions
to Running and emits `EVENT:STARTED` (even when no chamber qualifies), and
arms exactly the chambers with `targetTemp ≥ 40` — setting `isActive = true`,
`remainingTime = targetTime`, `timerStarted = false` and stamping
`timerLastUpdate` on those — while leaving every chamber with
`targetTemp < 40` completely unchanged. -/
theorem claim_C5 (now : Nat) (s : SysState)
    (h : s.currentState ≠ SystemState.running) :
    (handleButtonPress now 4 s).1.currentState = SystemState.running ∧
    (handleButtonPress now 4 s).2 = ["EVENT:STARTED\n"] ∧
    ∀ i : Nat,
      (TEMP_MIN ≤ (s.chambers.get i).targetTemp →
        (handleButtonPress now 4 s).1.chambers.get i =
          { s.chambers.get i with
              isActive := true,
              remainingTime := (s.chambers.get i).targetTime,
              timerStarted := false,
              timerLastUpdate := now }) ∧
      (¬ TEMP_MIN ≤ (s.chambers.get i).targetTemp →
        (handleButtonPress now 4 s).1.chambers.get i = s.chambers.get i) := by
  refine ⟨?_, ?_, ?_⟩
  · simp [handleButtonPress, h]
  · simp [handleButtonPress, h]
  · intro i
    simp only [handleButtonPress, h]
    norm_num [Chambers.get, armChamber]
    split_ifs <;> simp_all

/-- Witness for C5 (amended) at a concrete idle state with one chamber at
65 °C and the others off. -/
theorem claim_C5_witness :
    ({ initState with
        chambers := ⟨{ initChamber with targetTemp := 65, targetTime := 60 },
          initChamber, initChamber⟩ } : SysState).currentState ≠
        SystemState.running ∧
    ((handleButtonPress 7 4
        { initState with
            chambers := ⟨{ initChamber with targetTemp := 65, targetTime := 60 },
              initChamber, initChamber⟩ }).1.currentState =
        SystemState.running ∧
     (handleButtonPress 7 4
        { initState with
            chambers := ⟨{ initChamber with targetTemp := 65, targetTime := 60 },
              initChamber, initChamber⟩ }).2 = ["EVENT:STARTED\n"]) :=
  ⟨by decide,
   (claim_C5 7 _ (by decide)).1,
   (claim_C5 7 _ (by decide)).2.1⟩

-- ==================== claim C7: raw SET bypasses the clamp ====================

/-- C7: the inbound command `SET:C1:999:60` stores `targetTemp = 999` and
`targetTime = 60` verbatim in chamber 1 — a value outside the UI clamp
domain `{0} ∪ [40, 90]` — and is acknowledged. -/
theorem claim_C7 :
    ((parseAppCommand ("SET:C1:999:60".data) initState.chambers).1.get 0).targetTemp
        = 999 ∧
    ((parseAppCommand ("SET:C1:999:60".data) initState.chambers).1.get 0).targetTime
        = 60 ∧
    (parseAppCommand ("SET:C1:999:60".data) initState.chambers).2 =
        ["ACK:Settings received\n"] ∧
    ¬ tempInDomain
        ((parseAppCommand ("SET:C1:999:60".data) initState.chambers).1.get 0).targetTemp := by
  decide

-- ==================== parser characterization (claims C4, C9) ====================

theorem splitComma_of_none (cmd : List Char) (h : indexOfQ ',' cmd = none) :
    splitComma cmd = [cmd] := by
  induction cmd with
  | nil => rfl
  | cons c rest ih =>
    simp only [indexOfQ] at h
    by_cases hc : c = ','
    · rw [if_pos hc] at h; exact absurd h (by simp)
    · rw [if_neg hc] at h
      have hrest : indexOfQ ',' rest = none := by
        cases hr : indexOfQ ',' rest with
        | none => rfl
        | some p => rw [hr] at h; exact absurd h (by simp)
      simp [splitComma, hc, ih hrest]

theorem splitComma_of_some (cmd : List Char) (p : Nat)
    (h : indexOfQ ',' cmd = some p) :
    splitComma cmd = cmd.take p :: splitComma (cmd.drop (p + 1)) := by
  induction cmd generalizing p with
  | nil => exact absurd h (by simp [indexOfQ])
  | cons c rest ih =>
    simp only [indexOfQ] at h
    by_cases hc : c = ','
    · rw [if_pos hc] at h
      have hp : p = 0 := by
        have := Option.some.inj h
        omega
      subst hp
      simp [splitComma, hc]
    · rw [if_neg hc] at h
      cases hr : indexOfQ ',' rest with
      | none => rw [hr] at h; exact absurd h (by simp)
      | some q =>
        rw [hr] at h
        have hp : p = q + 1 := by
          simp at h
          omega
        subst hp
        simp [splitComma, hc, ih q hr]

theorem parseSETgo_eq (fuel : Nat) :
    ∀ (cmd : List Char) (cs : Chambers) (idx : Nat), cmd.length < fuel →
    parseSETgo fuel cs cmd idx =
      List.foldl processSegment cs
        ((splitComma cmd).take (NUM_CHAMBERS - idx)) := by
  induction fuel with
  | zero => intro cmd cs idx h; omega
  | succ fuel ih =>
    intro cmd cs idx h
    simp only [parseSETgo]
    by_cases hcond : cmd.length > 0 ∧ idx < NUM_CHAMBERS
    · rw [if_pos hcond]
      obtain ⟨hlen, hidx⟩ := hcond
      cases hcomma : indexOfQ ',' cmd with
      | none =>
        rw [splitComma_of_none cmd hcomma]
        have hidx3 : idx < 3 := hidx
        have htake : ([cmd].take (NUM_CHAMBERS - idx)) = [cmd] := by
          have hge : NUM_CHAMBERS - idx ≥ 1 := by
            have h3 : (3 : Nat) - idx ≥ 1 := by omega
            exact h3
          cases hnc : NUM_CHAMBERS - idx with
          | zero => omega
          | succ n => simp
        rw [htake]
        rfl
      | some p =>
        show parseSETgo fuel (processSegment cs (cmd.take p))
            (cmd.drop (p + 1)) (idx + 1) = _
        rw [splitComma_of_some cmd p hcomma]
        have hlt : (cmd.drop (p + 1)).length < fuel := by
          rw [List.length_drop]
          omega
        rw [ih (cmd.drop (p + 1)) (processSegment cs (cmd.take p)) (idx + 1) hlt]
        have hnc : NUM_CHAMBERS - idx = (NUM_CHAMBERS - (idx + 1)) + 1 := by
          unfold NUM_CHAMBERS at *; omega
        rw [hnc]
        rfl
    · rw [if_neg hcond]
      push_neg at hcond
      by_cases hidx : idx < NUM_CHAMBERS
      · have hnil : cmd = [] := by
          by_contra hne
          have hgt : cmd.length > 0 := by
            cases cmd with
            | nil => exact absurd rfl hne
            | cons a l => simp
          have := hcond hgt
          omega
        rw [hnil]
        have : NUM_CHAMBERS - idx ≥ 1 := by unfold NUM_CHAMBERS at *; omega
        cases hnc : NUM_CHAMBERS - idx with
        | zero => omega
        | succ n => simp [splitComma, processSegment, indexOfQ]
      · have : NUM_CHAMBERS - idx = 0 := by omega
        rw [this]
        simp

theorem parseSETloop_eq (cs : Chambers) (cmd : List Char) (idx : Nat) :
    parseSETloop cs cmd idx =
      List.foldl processSegment cs
        ((splitComma cmd).take (NUM_CHAMBERS - idx)) :=
  parseSETgo_eq (cmd.length + 1) cmd cs idx (by omega)

theorem processSegment_skip (cs : Chambers) (seg : List Char)
    (h : segmentAccepted seg = false) : processSegment cs seg = cs := by
  cases h1 : indexOfQ ':' seg with
  | none => simp [processSegment, h1]
  | some c1 =>
    by_cases hc : c1 = 0
    · simp [processSegment, h1, hc]
    · cases h2 : indexOfFromQ ':' seg (c1 + 1) with
      | none => simp [processSegment, h1, hc, h2]
      | some c2 =>
        have hr : ¬(0 ≤ toIntA (substrA seg 1 c1) - 1 ∧
            toIntA (substrA seg 1 c1) - 1 < (NUM_CHAMBERS : Int)) := by
          intro hcontra
          have h' := h
          simp [segmentAccepted, h1, hc, h2, hcontra.1, hcontra.2] at h'
        simp only [processSegment, h1, hc, h2]
        simp
        intro ha hb
        exact absurd ⟨by omega, hb⟩ hr

-- ==================== claim C4: per-segment error recovery ====================

/-- C4: for every inbound `SET` command, the parser behaves as a fold of the
per-segment update over (at most the first three) comma-separated segments,
and the `ACK` line is sent regardless of how many segments parsed; any
segment that fails the two-colon structural check or whose 1-based chamber
index falls outside `[1, 3]` is skipped, leaving every chamber unchanged by
that segment, while the remaining valid segments are still applied through
the fold. -/
theorem claim_C4 :
    (∀ (cs : Chambers) (cmd : List Char),
       ("SET:".data).isPrefixOf (trimA cmd) = true →
       parseAppCommand cmd cs =
         (List.foldl processSegment cs
            ((splitComma ((trimA cmd).drop 4)).take NUM_CHAMBERS),
          ["ACK:Settings received\n"])) ∧
    (∀ (cs : Chambers) (seg : List Char),
       segmentAccepted seg = false → processSegment cs seg = cs) := by
  constructor
  · intro cs cmd hpre
    simp only [parseAppCommand]
    rw [if_pos hpre, parseSETloop_eq]
    norm_num
  · intro cs seg h
    exact processSegment_skip cs seg h

/-- Witness for C4: a command with one structurally malformed segment, one
valid segment and one out-of-range segment; and the malformed segment alone. -/
theorem claim_C4_witness :
    (("SET:".data).isPrefixOf
        (trimA ("SET:junk,C2:50:30,C9:80:80".data)) = true ∧
     parseAppCommand ("SET:junk,C2:50:30,C9:80:80".data) initState.chambers =
       (List.foldl processSegment initState.chambers
          ((splitComma
              ((trimA ("SET:junk,C2:50:30,C9:80:80".data)).drop 4)).take
            NUM_CHAMBERS),
        ["ACK:Settings received\n"])) ∧
    (segmentAccepted ("junk".data) = false ∧
     processSegment initState.chambers ("junk".data) = initState.chambers) :=
  ⟨⟨by decide, claim_C4.1 initState.chambers _ (by decide)⟩,
   ⟨by decide, claim_C4.2 initState.chambers _ (by decide)⟩⟩

-- ==================== claim C9: only three segments examined ====================

theorem splitComma_append (s t : List Char) (h : ',' ∉ s) :
    splitComma (s ++ ',' :: t) = s :: splitComma t := by
  induction s with
  | nil => simp [splitComma]
  | cons c cs2 ih =>
    have hc : ¬(c = ',') := by
      intro he
      exact h (by simp [he])
    have hcs : ',' ∉ cs2 := fun hm => h (by simp [hm])
    simp only [List.cons_append, splitComma, List.append_eq]
    rw [if_neg hc, ih hcs]
    simp

/-- C9: the `SET` segment loop examines at most the first three
comma-separated segments: whatever follows the third comma — well-formed or
not — is ignored, and the result is exactly the fold over the first three
segments. -/
theorem claim_C9 (cs : Chambers) (s1 s2 s3 rest : List Char)
    (h1 : ',' ∉ s1) (h2 : ',' ∉ s2) (h3 : ',' ∉ s3) :
    parseSETloop cs (s1 ++ ',' :: (s2 ++ ',' :: (s3 ++ ',' :: rest))) 0 =
      List.foldl processSegment cs [s1, s2, s3] := by
  rw [parseSETloop_eq, splitComma_append s1 _ h1, splitComma_append s2 _ h2,
    splitComma_append s3 _ h3]
  norm_num [NUM_CHAMBERS]

/-- Witness for C9: a fourth, well-formed, in-range segment (`C2:99:99`)
after three valid segments does not reach the fold. -/
theorem claim_C9_witness :
    (',' ∉ ("C1:41:10".data) ∧ ',' ∉ ("C2:42:20".data) ∧
     ',' ∉ ("C3:43:30".data)) ∧
    parseSETloop initState.chambers
        (("C1:41:10".data) ++ ',' ::
          (("C2:42:20".data) ++ ',' ::
            (("C3:43:30".data) ++ ',' :: ("C2:99:99".data)))) 0 =
      List.foldl processSegment initState.chambers
        [("C1:41:10".data), ("C2:42:20".data), ("C3:43:30".data)] :=
  ⟨⟨by decide, by decide, by decide⟩,
   claim_C9 initState.chambers _ _ _ _ (by decide) (by decide) (by decide)⟩

-- ==================== claim C10: the leading character is never checked ====================

/-- C10: the segment parser never looks at the first character of a segment
(it only reads the chamber index from the characters strictly between
position 1 and the first colon), so replacing the leading character by any
other non-colon character — for example `X1:65:60` for `C1:65:60` — yields
exactly the same chamber update. -/
theorem claim_C10 (cs : Chambers) (a b : Char) (rest : List Char)
    (ha : a ≠ ':') (hb : b ≠ ':') :
    processSegment cs (a :: rest) = processSegment cs (b :: rest) := by
  cases hk : indexOfQ ':' rest with
  | none => simp [processSegment, indexOfQ, ha, hb, hk]
  | some k => simp [processSegment, indexOfQ, indexOfFromQ, substrA, ha, hb, hk]

/-- Witness for C10: `X1:65:60` is applied exactly as `C1:65:60`. -/
theorem claim_C10_witness :
    (('X' : Char) ≠ ':' ∧ ('C' : Char) ≠ ':') ∧
    processSegment initState.chambers ('X' :: ("1:65:60".data)) =
      processSegment initState.chambers ('C' :: ("1:65:60".data)) :=
  ⟨⟨by decide, by decide⟩,
   claim_C10 initState.chambers 'X' 'C' ("1:65:60".data) (by decide) (by decide)⟩

-- ==================== claim C3: the timerStarted latch ====================

/-- Two chamber arrays agreeing on every `isActive` and `timerStarted` flag. -/
def FlagsEq (cs cs' : Chambers) : Prop :=
  cs'.ch0.isActive = cs.ch0.isActive ∧
  cs'.ch0.timerStarted = cs.ch0.timerStarted ∧
  cs'.ch1.isActive = cs.ch1.isActive ∧
  cs'.ch1.timerStarted = cs.ch1.timerStarted ∧
  cs'.ch2.isActive = cs.ch2.isActive ∧
  cs'.ch2.timerStarted = cs.ch2.timerStarted

theorem flagsEq_get_ts (cs cs' : Chambers) (hF : FlagsEq cs cs') (i : Nat) :
    (cs'.get i).timerStarted = (cs.get i).timerStarted := by
  obtain ⟨f1, f2, f3, f4, f5, f6⟩ := hF
  unfold Chambers.get
  split_ifs <;> assumption

theorem modify_flags (cs : Chambers) (n : Nat) (f : ChamberData → ChamberData)
    (hf : ∀ c, (f c).isActive = c.isActive ∧ (f c).timerStarted = c.timerStarted) :
    FlagsEq cs (cs.modify n f) := by
  unfold Chambers.modify Chambers.set Chambers.get FlagsEq
  split_ifs <;> refine ⟨?_, ?_, ?_, ?_, ?_, ?_⟩ <;>
    first
      | rfl
      | exact (hf _).1
      | exact (hf _).2

theorem processSegment_flags (cs : Chambers) (seg : List Char) :
    FlagsEq cs (processSegment cs seg) := by
  have hrefl : FlagsEq cs cs := ⟨rfl, rfl, rfl, rfl, rfl, rfl⟩
  simp only [processSegment]
  split
  · exact hrefl
  · split_ifs with hc hr
    · exact hrefl
    · split
      · exact hrefl
      · exact modify_flags cs _ _ (fun c => ⟨rfl, rfl⟩)
    · split <;> exact hrefl

theorem foldl_processSegment_flags (l : List (List Char)) :
    ∀ cs : Chambers, FlagsEq cs (List.foldl processSegment cs l) := by
  induction l with
  | nil => exact fun cs => ⟨rfl, rfl, rfl, rfl, rfl, rfl⟩
  | cons seg rest ih =>
    intro cs
    obtain ⟨a1, a2, a3, a4, a5, a6⟩ := processSegment_flags cs seg
    obtain ⟨b1, b2, b3, b4, b5, b6⟩ := ih (processSegment cs seg)
    exact ⟨b1.trans a1, b2.trans a2, b3.trans a3, b4.trans a4,
      b5.trans a5, b6.trans a6⟩

theorem parseAppCommand_flags (cmd : List Char) (cs : Chambers) :
    FlagsEq cs (parseAppCommand cmd cs).1 := by
  simp only [parseAppCommand]
  split_ifs with h
  · rw [parseSETloop_eq]
    exact foldl_processSegment_flags _ cs
  · exact ⟨rfl, rfl, rfl, rfl, rfl, rfl⟩

theorem applyReading_flags (now idx : Nat) (v : ℚ) (c : ChamberData) :
    (applyReading now idx v c).1.isActive = c.isActive ∧
    ((applyReading now idx v c).1.timerStarted = true →
      (c.timerStarted = true ∨ c.isActive = true)) := by
  simp only [applyReading]
  split_ifs with hA hB hC <;>
    first
      | exact ⟨rfl, fun _ => Or.inr hA.1⟩
      | exact ⟨rfl, fun hts => Or.inl hts⟩

theorem applyReading_latch (now idx : Nat) (v : ℚ) (c : ChamberData)
    (h : c.timerStarted = true) :
    (applyReading now idx v c).1.timerStarted = true := by
  simp only [applyReading]
  split_ifs with hA hB hC <;>
    first
      | rfl
      | exact h

theorem tickTimer_flags (now idx : Nat) (c : ChamberData) :
    (tickTimer now idx c).1.isActive = c.isActive ∧
    (tickTimer now idx c).1.timerStarted = c.timerStarted := by
  simp only [tickTimer]
  split_ifs <;> exact ⟨rfl, rfl⟩

/-- The global invariant behind the latch: a chamber can only be active, or
holding a started timer, while the controller is in `STATE_RUNNING`. -/
def runningInv (s : SysState) : Prop :=
  (s.chambers.ch0.isActive = true → s.currentState = SystemState.running) ∧
  (s.chambers.ch0.timerStarted = true → s.currentState = SystemState.running) ∧
  (s.chambers.ch1.isActive = true → s.currentState = SystemState.running) ∧
  (s.chambers.ch1.timerStarted = true → s.currentState = SystemState.running) ∧
  (s.chambers.ch2.isActive = true → s.currentState = SystemState.running) ∧
  (s.chambers.ch2.timerStarted = true → s.currentState = SystemState.running)

theorem runningInv_of (s s' : SysState) (h : runningInv s)
    (hc : s'.currentState = SystemState.running ∨
          (FlagsEq s.chambers s'.chambers ∧
           s'.currentState = s.currentState) ∨
          ((s'.chambers.ch0.isActive = false ∧
            s'.chambers.ch0.timerStarted = false) ∧
           (s'.chambers.ch1.isActive = false ∧
            s'.chambers.ch1.timerStarted = false) ∧
           (s'.chambers.ch2.isActive = false ∧
            s'.chambers.ch2.timerStarted = false)) ∨
          (FlagsEq s.chambers s'.chambers ∧
           s.currentState ≠ SystemState.running) ∨
          (s'.currentState = s.currentState ∧
           s'.chambers.ch0.isActive = s.chambers.ch0.isActive ∧
           s'.chambers.ch1.isActive = s.chambers.ch1.isActive ∧
           s'.chambers.ch2.isActive = s.chambers.ch2.isActive ∧
           (s'.chambers.ch0.timerStarted = true →
             (s.chambers.ch0.timerStarted = true ∨
              s.chambers.ch0.isActive = true)) ∧
           (s'.chambers.ch1.timerStarted = true →
             (s.chambers.ch1.timerStarted = true ∨
              s.chambers.ch1.isActive = true)) ∧
           (s'.chambers.ch2.timerStarted = true →
             (s.chambers.ch2.timerStarted = true ∨
              s.chambers.ch2.isActive = true)))) :
    runningInv s' := by
  obtain ⟨i1, t1, i2, t2, i3, t3⟩ := h
  unfold runningInv
  rcases hc with hA | ⟨⟨f1, f2, f3, f4, f5, f6⟩, hS⟩ |
    ⟨⟨a0, b0⟩, ⟨a1, b1⟩, ⟨a2, b2⟩⟩ | ⟨⟨f1, f2, f3, f4, f5, f6⟩, hNR⟩ |
    ⟨hS, g1, g2, g3, p1, p2, p3⟩
  · exact ⟨fun _ => hA, fun _ => hA, fun _ => hA,
      fun _ => hA, fun _ => hA, fun _ => hA⟩
  · exact ⟨fun ha => hS.trans (i1 (f1.symm.trans ha)),
      fun ha => hS.trans (t1 (f2.symm.trans ha)),
      fun ha => hS.trans (i2 (f3.symm.trans ha)),
      fun ha => hS.trans (t2 (f4.symm.trans ha)),
      fun ha => hS.trans (i3 (f5.symm.trans ha)),
      fun ha => hS.trans (t3 (f6.symm.trans ha))⟩
  · exact ⟨fun ha => (nomatch a0.symm.trans ha),
      fun ha => (nomatch b0.symm.trans ha),
      fun ha => (nomatch a1.symm.trans ha),
      fun ha => (nomatch b1.symm.trans ha),
      fun ha => (nomatch a2.symm.trans ha),
      fun ha => (nomatch b2.symm.trans ha)⟩
  · exact ⟨fun ha => absurd (i1 (f1.symm.trans ha)) hNR,
      fun ha => absurd (t1 (f2.symm.trans ha)) hNR,
      fun ha => absurd (i2 (f3.symm.trans ha)) hNR,
      fun ha => absurd (t2 (f4.symm.trans ha)) hNR,
      fun ha => absurd (i3 (f5.symm.trans ha)) hNR,
      fun ha => absurd (t3 (f6.symm.trans ha)) hNR⟩
  · refine ⟨fun ha => hS.trans (i1 (g1.symm.trans ha)), fun ha => ?_,
      fun ha => hS.trans (i2 (g2.symm.trans ha)), fun ha => ?_,
      fun ha => hS.trans (i3 (g3.symm.trans ha)), fun ha => ?_⟩
    · rcases p1 ha with hts | hia
      · exact hS.trans (t1 hts)
      · exact hS.trans (i1 hia)
    · rcases p2 ha with hts | hia
      · exact hS.trans (t2 hts)
      · exact hS.trans (i2 hia)
    · rcases p3 ha with hts | hia
      · exact hS.trans (t3 hts)
      · exact hS.trans (i3 hia)

theorem step_runningInv (s : SysState) (e : Event) (h : runningInv s) :
    runningInv (step s e) := by
  cases e with
  | press b now =>
    refine runningInv_of s _ h ?_
    simp only [step, handleButtonPress]
    split_ifs <;>
      first
        | exact Or.inl rfl
        | exact Or.inl (by assumption)
        | exact Or.inr (Or.inl ⟨⟨rfl, rfl, rfl, rfl, rfl, rfl⟩, rfl⟩)
        | exact Or.inr (Or.inr (Or.inl
            ⟨⟨rfl, rfl⟩, ⟨rfl, rfl⟩, ⟨rfl, rfl⟩⟩))
        | exact Or.inr (Or.inr (Or.inr (Or.inl
            ⟨⟨rfl, rfl, rfl, rfl, rfl, rfl⟩, by assumption⟩)))
        | exact Or.inr (Or.inl
            ⟨modify_flags _ _ _ (fun c => ⟨rfl, rfl⟩), rfl⟩)
  | readings r0 r1 r2 now =>
    refine runningInv_of s _ h (Or.inr (Or.inr (Or.inr (Or.inr ?_))))
    exact ⟨rfl,
      (applyReading_flags now 0 r0 s.chambers.ch0).1,
      (applyReading_flags now 1 r1 s.chambers.ch1).1,
      (applyReading_flags now 2 r2 s.chambers.ch2).1,
      (applyReading_flags now 0 r0 s.chambers.ch0).2,
      (applyReading_flags now 1 r1 s.chambers.ch1).2,
      (applyReading_flags now 2 r2 s.chambers.ch2).2⟩
  | timerPass now =>
    simp only [step]
    split_ifs with hR
    · exact runningInv_of s _ h (Or.inl hR)
    · exact h
  | command cmd =>
    refine runningInv_of s _ h (Or.inr (Or.inl ⟨?_, rfl⟩))
    exact parseAppCommand_flags cmd s.chambers

theorem reachable_runningInv (s : SysState) (hs : Reachable s) :
    runningInv s := by
  induction hs with
  | init =>
    unfold runningInv
    exact ⟨fun ha => (nomatch ha), fun ha => (nomatch ha), fun ha => (nomatch ha),
      fun ha => (nomatch ha), fun ha => (nomatch ha), fun ha => (nomatch ha)⟩
  | next s' e _ ih => exact step_runningInv s' e ih

/-- C3: in every reachable state, once a chamber's `timerStarted` latch is
set, servicing any input other than a press of button 4 leaves it set — in
particular further sensor readings, however far from the target, never clear
it — and the controller is necessarily in `STATE_RUNNING`, so the one
excluded input is exactly the ToggleRun stop branch (`disarm`): only
stopping the run resets the latch. -/
theorem claim_C3 (s : SysState) (hs : Reachable s) (i : Nat)
    (hl : (s.chambers.get i).timerStarted = true) :
    (∀ e : Event, (∀ now : Nat, e ≠ Event.press 4 now) →
       ((step s e).chambers.get i).timerStarted = true) ∧
    s.currentState = SystemState.running := by
  have hinv := reachable_runningInv s hs
  constructor
  · intro e he
    cases e with
    | press b now =>
      have hb4 : b ≠ 4 := fun h4 => (he now) (by rw [h4])
      show ((handleButtonPress now b s).1.chambers.get i).timerStarted = true
      simp only [handleButtonPress]
      split_ifs <;>
        first
          | exact hl
          | exact absurd (by assumption : b = 4) hb4
          | (rw [flagsEq_get_ts _ _
                (modify_flags _ _ (adjustTemperature (-1))
                  (fun c => ⟨rfl, rfl⟩)) i]
             exact hl)
          | (rw [flagsEq_get_ts _ _
                (modify_flags _ _ (adjustTemperature 1)
                  (fun c => ⟨rfl, rfl⟩)) i]
             exact hl)
          | (rw [flagsEq_get_ts _ _
                (modify_flags _ _ (adjustTime (-1))
                  (fun c => ⟨rfl, rfl⟩)) i]
             exact hl)
          | (rw [flagsEq_get_ts _ _
                (modify_flags _ _ (adjustTime 1)
                  (fun c => ⟨rfl, rfl⟩)) i]
             exact hl)
    | readings r0 r1 r2 now =>
      show ((updateTemperatures now r0 r1 r2 s).1.chambers.get i).timerStarted
          = true
      simp only [updateTemperatures]
      unfold Chambers.get at hl ⊢
      split_ifs at hl ⊢ with h0 h1
      · exact applyReading_latch now 0 r0 s.chambers.ch0 hl
      · exact applyReading_latch now 1 r1 s.chambers.ch1 hl
      · exact applyReading_latch now 2 r2 s.chambers.ch2 hl
    | timerPass now =>
      show (((if s.currentState = SystemState.running
            then (updateTimers now s).1 else s)).chambers.get i).timerStarted
          = true
      split_ifs with hR
      · simp only [updateTimers]
        unfold Chambers.get at hl ⊢
        split_ifs at hl ⊢ with h0 h1
        · exact (tickTimer_flags now 0 s.chambers.ch0).2.trans hl
        · exact (tickTimer_flags now 1 s.chambers.ch1).2.trans hl
        · exact (tickTimer_flags now 2 s.chambers.ch2).2.trans hl
      · exact hl
    | command cmd =>
      show (((parseAppCommand cmd s.chambers).1).get i).timerStarted = true
      rw [flagsEq_get_ts _ _ (parseAppCommand_flags cmd s.chambers) i]
      exact hl
  · obtain ⟨i1, t1, i2, t2, i3, t3⟩ := hinv
    unfold Chambers.get at hl
    split_ifs at hl
    exacts [t1 hl, t2 hl, t3 hl]

/-- The run-up to the C3 witness: configure chamber 1, start the run, and
apply an in-tolerance reading so the latch sets. -/
def c3trace : List Event :=
  [ .command ("SET:C1:65:60".data)
  , .press 4 0
  , .readings 65 0 0 1000 ]

/-- The (by construction reachable) state after `c3trace`. -/
def c3state : SysState := runEvents initState c3trace

/-- The state just before the reading of `c3trace`, written out. -/
def c3mid : SysState :=
  { currentState := .running, settingMode := .temperature, selectedChamber := 0
    chambers := ⟨{ targetTemp := 65, currentTemp := 0, targetTime := 60,
                   remainingTime := 60, isActive := true, atTemperature := false,
                   timerStarted := false, timerLastUpdate := 0 },
                 initChamber, initChamber⟩
    lastButtonPress := 0 }

/-- Witness for C3: at the reachable latched state, a wildly drifted reading
(999 °C against a 65 °C target) leaves the latch set, and the state is
Running. -/
theorem claim_C3_witness :
    ((step c3state (Event.readings 999 0 0 2000)).chambers.get 0).timerStarted
        = true ∧
    c3state.currentState = SystemState.running := by
  have hs : Reachable c3state :=
    Reachable.next
      (step (step initState (Event.command ("SET:C1:65:60".data)))
        (Event.press 4 0))
      (Event.readings 65 0 0 1000)
      (Reachable.next (step initState (Event.command ("SET:C1:65:60".data)))
        (Event.press 4 0)
        (Reachable.next initState (Event.command ("SET:C1:65:60".data))
          Reachable.init))
  have hmid : runEvents initState
      [Event.command ("SET:C1:65:60".data), Event.press 4 0] = c3mid := by
    decide
  have hstep : c3state = step c3mid (Event.readings 65 0 0 1000) := by
    show runEvents initState c3trace = _
    rw [← hmid]
    rfl
  have hl : (c3state.chambers.get 0).timerStarted = true := by
    rw [hstep]
    norm_num [step, updateTemperatures, applyReading, c3mid, TEMP_MIN,
      TEMP_TOLERANCE, initChamber, Chambers.get]
  exact ⟨(claim_C3 c3state hs 0 hl).1 (Event.readings 999 0 0 2000)
      (fun now h => (nomatch h)),
    (claim_C3 c3state hs 0 hl).2⟩

end Skripsie
